import Mathlib

/-!
Verification of the asset-embedding encoder/decoder pair of
`Resources/EmbedStaticAssets.py` (OHIF plugin for Orthanc).

The Python script walks a source tree, gzip-compresses every file, emits the
compressed bytes as a C string literal (octal-escaping non-printable bytes and
wrapping lines at column 120), emits the MD5 of the original bytes as a second
constant, and finally emits a C++ dispatch routine `ReadStaticAsset` that
decompresses the matched blob and verifies its checksum.

We embed:
  * the literal encoder (`encodeByte`, `encodeLoop`, faithful to
    `EncodeFileAsCString`, lines 39-65 of the script);
  * the C string-literal semantics (`decodeBody`): octal escapes of one to
    three digits, simple character escapes, and concatenation of adjacent
    literals separated by whitespace — this is the meaning the C++ compiler
    assigns to the emitted literal;
  * the textual generator (`emitAssets`, `artifactText`, faithful to the
    main `with open(TARGET)` block, lines 73-132);
  * the semantics of the generated C++ (`GenAsset`, `Uncompress`,
    `ReadStaticAsset`), with gzip and MD5 as abstract external collaborators,
    exactly as the spec treats them.

Machine bytes are modelled as `Nat` with explicit `< 256` bounds; the emitted
text is modelled as the list of its character codes (and as `String` at the
outer, textual level).
-/

/-- Three-digit zero-padded octal rendering of a byte value, as produced by
the Python format `'\\\x7b0:03o\x7d'` for values below 256: the list of the
three digit character codes. -/
def octal3 (i : Nat) : List Nat :=
  [48 + i / 64, 48 + i / 8 % 8, 48 + i % 8]

/-- The per-byte literal encoding of `EncodeFileAsCString` (lines 53-58):
non-printable bytes, bytes at or above 127, and the question mark are emitted
as a backslash followed by three octal digits; the double quote and the
backslash are emitted as a backslash followed by the character itself; every
other byte is emitted verbatim. The result is the list of emitted character
codes. -/
def encodeByte (i : Nat) : List Nat :=
  if i < 32 ∨ 127 ≤ i ∨ i = 63 then
    92 :: octal3 i
  else if i = 34 ∨ i = 92 then
    [92, i]
  else
    [i]

/-- The encoding loop of `EncodeFileAsCString` (lines 41-63): encodes each
byte in turn, counting a column per source byte; once 120 bytes have been
emitted on a line the string literal is closed and reopened on a fresh
indented line (the five character codes of `'"\n  "'`) and the column resets
to zero. -/
def encodeLoop : List Nat → Nat → List Nat
  | [], _ => []
  | c :: rest, column =>
    encodeByte c ++
      (if 120 ≤ column + 1 then
        [34, 10, 32, 32, 34] ++ encodeLoop rest 0
      else
        encodeLoop rest (column + 1))

/-- Recogniser for octal digit character codes (the codes of the characters
0 through 7). -/
def isOct (c : Nat) : Bool :=
  decide (48 ≤ c) && decide (c ≤ 55)

/-- The value of a C simple escape sequence: the standard control-character
escapes, with every other escaped character (quote, backslash, question mark,
apostrophe in particular) denoting itself. -/
def escChar (c : Nat) : Nat :=
  if c = 110 then 10
  else if c = 116 then 9
  else if c = 114 then 13
  else if c = 98 then 8
  else if c = 102 then 12
  else if c = 118 then 11
  else if c = 97 then 7
  else c

/-- Consume up to `k` further octal digit character codes, accumulating their
value onto `acc` (C consumes at most three digits per octal escape; the caller
has already consumed the first digit). Returns the accumulated byte value and
the unconsumed remainder of the stream. -/
def grabOct : List Nat → Nat → Nat → Nat × List Nat
  | l, acc, 0 => (acc, l)
  | [], acc, _ + 1 => (acc, [])
  | c :: rest, acc, k + 1 =>
    if isOct c then grabOct rest (acc * 8 + (c - 48)) k
    else (acc, c :: rest)

theorem grabOct_length : ∀ l acc k, (grabOct l acc k).2.length ≤ l.length := by
  intro l
  induction l with
  | nil => intro acc k; cases k <;> simp [grabOct]
  | cons c rest ih =>
    intro acc k
    cases k with
    | zero => simp [grabOct]
    | succ k =>
      simp only [grabOct]
      split
      · exact Nat.le_trans (ih _ k) (Nat.le_succ _)
      · exact Nat.le_refl _

/-- The meaning the C compiler assigns to the character stream of a (possibly
split) string literal body, from the first character after the opening quote
onward. The Bool records whether we are inside a literal (`true`) or between
adjacent literals (`false`, where whitespace is skipped until the next opening
quote: the C adjacent-string-literal concatenation rule). Inside a literal, a
plain character denotes its own code; a backslash followed by one to three
octal digits denotes their value; a backslash followed by any other character
denotes that character's escape value; a double quote closes the current
literal. -/
def decodeAux : Bool → List Nat → List Nat
  | _, [] => []
  | false, c :: rest =>
    if c = 32 ∨ c = 10 ∨ c = 9 ∨ c = 13 then decodeAux false rest
    else if c = 34 then decodeAux true rest
    else []
  | true, c :: rest =>
    if c = 34 then decodeAux false rest
    else if c = 92 then
      match rest with
      | [] => []
      | c1 :: rest1 =>
        if isOct c1 then
          let vr := grabOct rest1 (c1 - 48) 2
          vr.1 :: decodeAux true vr.2
        else
          escChar c1 :: decodeAux true rest1
    else
      c :: decodeAux true rest
termination_by _ l => l.length
decreasing_by
  all_goals simp_wf
  all_goals try omega
  exact Nat.lt_succ_of_lt (Nat.lt_succ_of_le (grabOct_length rest1 _ 2))

/-- The bytes denoted by a literal body stream, starting inside the literal
(just after its opening quote). -/
def decodeBody (l : List Nat) : List Nat :=
  decodeAux true l

/-- The byte sequence denoted by the emitted literal body together with the
closing quote written by the final write of the literal. -/
def decodeLiteral (body : List Nat) : List Nat :=
  decodeBody (body ++ [34])

theorem isOct_true_iff (c : Nat) : isOct c = true ↔ 48 ≤ c ∧ c ≤ 55 := by
  simp [isOct]

/-- Unfolding: inside a literal, a double quote leaves the literal. -/
theorem decodeAux_true_quote (rest : List Nat) :
    decodeAux true (34 :: rest) = decodeAux false rest := by
  rw [decodeAux.eq_def]
  simp

/-- Unfolding: inside a literal, a plain character denotes itself. -/
theorem decodeAux_true_plain (c : Nat) (rest : List Nat) (h34 : c ≠ 34)
    (h92 : c ≠ 92) : decodeAux true (c :: rest) = c :: decodeAux true rest := by
  rw [decodeAux.eq_def]
  simp [h34, h92]

/-- Unfolding: a backslash followed by a non-octal-digit character denotes
that character's escape value. -/
theorem decodeAux_true_esc (c1 : Nat) (rest1 : List Nat) (hno : isOct c1 = false) :
    decodeAux true (92 :: c1 :: rest1) = escChar c1 :: decodeAux true rest1 := by
  rw [decodeAux.eq_def]
  simp [hno]

/-- Unfolding: a backslash followed by three octal digits denotes their
value. -/
theorem decodeAux_true_oct (c1 c2 c3 : Nat) (rest : List Nat)
    (h1 : isOct c1 = true) (h2 : isOct c2 = true) (h3 : isOct c3 = true) :
    decodeAux true (92 :: c1 :: c2 :: c3 :: rest) =
      ((c1 - 48) * 64 + (c2 - 48) * 8 + (c3 - 48)) :: decodeAux true rest := by
  rw [decodeAux]
  simp only [grabOct, h1, h2, h3, if_true, reduceIte]
  rw [if_neg (show ¬((92:Nat) = 34) from by decide)]
  simp only [List.cons.injEq]
  exact ⟨by ring, trivial⟩

/-- Unfolding: between adjacent literals, whitespace is skipped. -/
theorem decodeAux_false_ws (w : Nat) (rest : List Nat)
    (hw : w = 32 ∨ w = 10 ∨ w = 9 ∨ w = 13) :
    decodeAux false (w :: rest) = decodeAux false rest := by
  rw [decodeAux.eq_def]
  simp [if_pos hw]

/-- Unfolding: between adjacent literals, an opening quote re-enters a
literal. -/
theorem decodeAux_false_quote (rest : List Nat) :
    decodeAux false (34 :: rest) = decodeAux true rest := by
  rw [decodeAux.eq_def]
  simp

/-- Unfolding: an exhausted stream denotes no bytes. -/
theorem decodeAux_nil (b : Bool) : decodeAux b [] = [] := by
  rw [decodeAux.eq_def]
  simp

/-- Decoding one encoded byte at the head of a literal stream recovers
exactly that byte and leaves the remainder of the stream to be decoded. -/
theorem decodeBody_encodeByte (c : Nat) (h : c < 256) (rest : List Nat) :
    decodeBody (encodeByte c ++ rest) = c :: decodeBody rest := by
  simp only [decodeBody]
  by_cases h1 : c < 32 ∨ 127 ≤ c ∨ c = 63
  · have hd1 : isOct (48 + c / 64) = true := by rw [isOct_true_iff]; omega
    have hd2 : isOct (48 + c / 8 % 8) = true := by rw [isOct_true_iff]; omega
    have hd3 : isOct (48 + c % 8) = true := by rw [isOct_true_iff]; omega
    simp only [encodeByte, octal3, if_pos h1, List.cons_append, List.nil_append]
    rw [decodeAux_true_oct _ _ _ _ hd1 hd2 hd3]
    simp only [List.cons.injEq]
    exact ⟨by omega, trivial⟩
  · push_neg at h1
    obtain ⟨ha, hb, hc63⟩ := h1
    by_cases h2 : c = 34 ∨ c = 92
    · have hne : ¬(c < 32 ∨ 127 ≤ c ∨ c = 63) := by omega
      have hno : isOct c = false := by
        rcases h2 with h2 | h2 <;> subst h2 <;> rfl
      have hesc : escChar c = c := by
        rcases h2 with h2 | h2 <;> subst h2 <;> rfl
      simp only [encodeByte, if_neg hne, if_pos h2, List.cons_append, List.nil_append]
      rw [decodeAux_true_esc _ _ hno, hesc]
    · push_neg at h2
      have hne : ¬(c < 32 ∨ 127 ≤ c ∨ c = 63) := by omega
      have h2or : ¬(c = 34 ∨ c = 92) := by tauto
      simp only [encodeByte, if_neg hne, if_neg h2or, List.cons_append, List.nil_append]
      rw [decodeAux_true_plain c rest h2.1 h2.2]

/-- The close-and-reopen sequence written at column 120 (quote, newline, two
spaces, quote) denotes no bytes: C concatenates the adjacent literals. -/
theorem decodeAux_sep (rest : List Nat) :
    decodeAux true ([34, 10, 32, 32, 34] ++ rest) = decodeAux true rest := by
  simp only [List.cons_append, List.nil_append]
  rw [decodeAux_true_quote, decodeAux_false_ws 10 _ (by tauto),
    decodeAux_false_ws 32 _ (by tauto), decodeAux_false_ws 32 _ (by tauto),
    decodeAux_false_quote]

/-- The closing quote at the end of the emitted literal terminates decoding. -/
theorem decodeBody_close : decodeBody [34] = [] := by
  rw [decodeBody, decodeAux_true_quote, decodeAux_nil]

/-- Round trip of the full encoding loop, for any starting column: the byte
sequence denoted by the emitted (wrapped) literal body is exactly the input
byte sequence. -/
theorem decodeBody_encodeLoop (content : List Nat) (h : ∀ b ∈ content, b < 256)
    (col : Nat) : decodeBody (encodeLoop content col ++ [34]) = content := by
  induction content generalizing col with
  | nil => simpa [encodeLoop] using decodeBody_close
  | cons c rest ih =>
    have hc : c < 256 := h c (List.mem_cons_self c rest)
    have hrest : ∀ b ∈ rest, b < 256 := fun b hb => h b (List.mem_cons_of_mem c hb)
    simp only [encodeLoop]
    by_cases hcol : 120 ≤ col + 1
    · rw [if_pos hcol, List.append_assoc, decodeBody_encodeByte c hc]
      rw [List.append_assoc]
      show c :: decodeAux true ([34, 10, 32, 32, 34] ++ (encodeLoop rest 0 ++ [34])) =
        c :: rest
      rw [decodeAux_sep]
      exact congrArg (c :: ·) (ih hrest 0)
    · rw [if_neg hcol, List.append_assoc, decodeBody_encodeByte c hc]
      exact congrArg (c :: ·) (ih hrest (col + 1))

/-- The unwrapped encoding: each byte's literal encoding, concatenated with
no close-and-reopen sequences. -/
def encodeFlat (content : List Nat) : List Nat :=
  (content.map encodeByte).flatten

/-- Round trip of the unwrapped encoding. -/
theorem decodeBody_encodeFlat (content : List Nat) (h : ∀ b ∈ content, b < 256) :
    decodeBody (encodeFlat content ++ [34]) = content := by
  induction content with
  | nil => simpa [encodeFlat] using decodeBody_close
  | cons c rest ih =>
    have hc : c < 256 := h c (List.mem_cons_self c rest)
    have hrest : ∀ b ∈ rest, b < 256 := fun b hb => h b (List.mem_cons_of_mem c hb)
    simp only [encodeFlat, List.map_cons, List.flatten_cons, List.append_assoc]
    rw [decodeBody_encodeByte c hc]
    exact congrArg (c :: ·) (ih hrest)

/-- Zero-padded six-digit decimal rendering, the Python format `%06d` used to
build the per-asset identifiers. -/
def pad6 (n : Nat) : String :=
  let s := toString n
  String.mk (List.replicate (6 - s.length) '0') ++ s

/-- A stream of character codes as a `String`. -/
def codesToString (l : List Nat) : String :=
  String.mk (l.map Char.ofNat)

/-- The full text written by one call of `EncodeFileAsCString` (lines 39-65):
the array declaration with declared size one more than the number of content
bytes, the wrapped literal body, and the closing quote and semicolon.
`content` is the compressed blob being embedded. -/
def encodeFileAsCStringText (vname : String) (content : List Nat) : String :=
  "static const uint8_t " ++ vname ++ "[" ++ toString (content.length + 1) ++
    "] = \n  \"" ++ codesToString (encodeLoop content 0) ++ "\";\n\n"

/-- The text written by one call of `WriteChecksum` (lines 68-70): the hex MD5
digest of `content` — the argument passed at the call site — as a string
constant. -/
def writeChecksumText (md5f : List Nat → String) (vname : String)
    (content : List Nat) : String :=
  "static const char* " ++ vname ++ " = \"" ++ md5f content ++ "\";\n\n"

/-- The per-file loop of the generator (lines 97-120): for the `count`-th
file, emit the compressed blob under identifier `data_<count>` and its
checksum under `data_<count>_md5` — the checksum is computed from `content`,
the original file bytes, while the literal is computed from the compressed
bytes — and record `(relativePath, identifier)` in the index, in traversal
order. Returns the emitted text and the index. -/
def emitAssets (gzipC : List Nat → List Nat) (md5f : List Nat → String) :
    List (String × List Nat) → Nat → String × List (String × String)
  | [], _ => ("", [])
  | (p, content) :: rest, count =>
    let vname := "data_" ++ pad6 count
    let tail := emitAssets gzipC md5f rest (count + 1)
    (encodeFileAsCStringText vname (gzipC content) ++
       writeChecksumText md5f (vname ++ "_md5") content ++ tail.1,
     (p, vname) :: tail.2)

/-- One conditional of the generated dispatch routine (lines 124-130). -/
def dispatchEntryText (p vname : String) : String :=
  "  if (path == \"" ++ p ++ "\")\n  \x7b\n    Uncompress(target, " ++ vname ++
    ", sizeof(" ++ vname ++ ") - 1, " ++ vname ++ "_md5);\n    return;\n  \x7d\n\n"

/-- The generated dispatch routine (lines 122-132): one exact string
comparison per index entry, falling through to the InexistentItem throw. -/
def dispatchText (idx : List (String × String)) : String :=
  "void ReadStaticAsset(std::string& target, const std::string& path)\n\x7b\n" ++
    String.join (idx.map fun pv => dispatchEntryText pv.1 pv.2) ++
    "  throw Orthanc::OrthancException(Orthanc::ErrorCode_InexistentItem, \"Unknown OHIF resource: \" + path);\n\x7d\n"

/-- The fixed prologue written at lines 74-95: includes and the C++
`Uncompress` helper (gzip-decompress, recompute MD5, throw CorruptedFile on
mismatch). -/
def headerText : String :=
  "\n#include <stdint.h>\n#include <Compression/GzipCompressor.h>\n#include <OrthancException.h>\n#include <Toolbox.h>\n\nstatic void Uncompress(std::string& target, const void* data, size_t size, const std::string& md5Expected)\n\x7b\n  Orthanc::GzipCompressor compressor;\n  compressor.Uncompress(target, data, size);\n  std::string md5Actual;\n  Orthanc::Toolbox::ComputeMD5(md5Actual, target);\n  if (md5Actual != md5Expected)\n  \x7b\n    throw Orthanc::OrthancException(Orthanc::ErrorCode_CorruptedFile);\n  \x7d\n\x7d\n\n"

/-- The whole generated artifact: prologue, per-asset constants, dispatch. -/
def artifactText (gzipC : List Nat → List Nat) (md5f : List Nat → String)
    (files : List (String × List Nat)) : String :=
  headerText ++ (emitAssets gzipC md5f files 0).1 ++
    dispatchText (emitAssets gzipC md5f files 0).2

/-- Outcome of one encoder invocation: the two fatal start-up errors carry no
artifact text at all — nothing has been written when they are raised — and
the success case carries the full artifact text. -/
inductive EncoderOutcome where
  | usageError
  | sourceNotFound
  | generated (artifact : String)
deriving DecidableEq

/-- The top-level control flow of the script (lines 29-36 and 73-132): the
argument-count check (`len(sys.argv) != 3`) runs first, then the
source-directory check (`os.path.isdir(SOURCE)`); only past both does the
script open the target for writing and emit the artifact. `isDir` is the
file-system predicate and `walk` the directory traversal, both external
collaborators. -/
def runEncoder (isDir : String → Bool) (walk : String → List (String × List Nat))
    (gzipC : List Nat → List Nat) (md5f : List Nat → String)
    (argv : List String) : EncoderOutcome :=
  if argv.length ≠ 3 then .usageError
  else if ¬ isDir (argv.getD 1 "") then .sourceNotFound
  else .generated (artifactText gzipC md5f (walk (argv.getD 1 "")))

/-- The compile-time meaning of one embedded asset: the declared array size
(`len(compressed) + 1`, line 40), the array contents — the bytes denoted by
the emitted string literal, zero-filled to the declared size, which is the C
initialization semantics of the emitted declaration — and the embedded
checksum string. -/
structure GenAsset where
  path : String
  storedSize : Nat
  storedData : List Nat
  md5 : String
deriving DecidableEq

/-- The asset generated for one source file `(relative path, raw bytes)`. -/
def mkAsset (gzipC : List Nat → List Nat) (md5f : List Nat → String)
    (pc : String × List Nat) : GenAsset :=
  let compressed := gzipC pc.2
  let denoted := decodeLiteral (encodeLoop compressed 0)
  { path := pc.1
    storedSize := compressed.length + 1
    storedData := denoted ++ List.replicate (compressed.length + 1 - denoted.length) 0
    md5 := md5f pc.2 }

/-- The assets embedded in the artifact generated from a source tree, in
traversal order. -/
def generateAssets (gzipC : List Nat → List Nat) (md5f : List Nat → String)
    (files : List (String × List Nat)) : List GenAsset :=
  files.map (mkAsset gzipC md5f)

/-- Result of a runtime lookup: the decompressed bytes, or one of the two
distinct error conditions thrown by the generated code. -/
inductive ReadResult where
  | ok (target : List Nat)
  | inexistentItem
  | corruptedFile
deriving DecidableEq

/-- The generated C++ `Uncompress` helper (lines 80-90): gzip-decompress the
blob, recompute the MD5 of the decompressed bytes, and throw
`ErrorCode_CorruptedFile` exactly when it differs from the embedded expected
digest; otherwise the decompressed bytes are the result. `gunzip` is the
external decompressor and `md5f` the digest function. -/
def Uncompress (gunzip : List Nat → List Nat) (md5f : List Nat → String)
    (data : List Nat) (md5Expected : String) : ReadResult :=
  let target := gunzip data
  if md5f target = md5Expected then .ok target else .corruptedFile

/-- The generated `ReadStaticAsset` dispatch (lines 122-132): try each asset
in order with an exact, case-sensitive, full-string comparison of the
requested path; on the first match call `Uncompress` with the asset's array,
its declared size minus one, and its checksum constant, and return; if no
comparison succeeds, throw `ErrorCode_InexistentItem`. -/
def ReadStaticAsset (gunzip : List Nat → List Nat) (md5f : List Nat → String) :
    List GenAsset → String → ReadResult
  | [], _ => .inexistentItem
  | a :: rest, path =>
    if path = a.path then
      Uncompress gunzip md5f (a.storedData.take (a.storedSize - 1)) a.md5
    else
      ReadStaticAsset gunzip md5f rest path

/-- The `WriteChecksum` helper as written (lines 68-70): it receives a file
object `f` but performs its write on the module-level handle `g` — modelled
as an optional handle, bound only while the `with open(TARGET) as g` block is
active. The write event produced names the handle written to and the text
written; when `g` is not bound no write event is possible. -/
def WriteChecksumEvent (f : Nat) (genv : Option Nat) (md5f : List Nat → String)
    (vname : String) (content : List Nat) : Option (Nat × String) :=
  match genv with
  | none => none
  | some g => some (g, writeChecksumText md5f vname content)

/-- When every compressed byte is an 8-bit value, the embedded array holds
exactly the compressed bytes followed by the one zero-filled terminator
element of the declared size. -/
theorem mkAsset_storedData (gzipC : List Nat → List Nat) (md5f : List Nat → String)
    (pc : String × List Nat) (h : ∀ b ∈ gzipC pc.2, b < 256) :
    (mkAsset gzipC md5f pc).storedData = gzipC pc.2 ++ [0] := by
  have hd : decodeLiteral (encodeLoop (gzipC pc.2) 0) = gzipC pc.2 :=
    decodeBody_encodeLoop (gzipC pc.2) h 0
  simp [mkAsset, hd]

theorem mkAsset_storedSize (gzipC : List Nat → List Nat) (md5f : List Nat → String)
    (pc : String × List Nat) :
    (mkAsset gzipC md5f pc).storedSize = (gzipC pc.2).length + 1 := rfl

theorem mkAsset_path (gzipC : List Nat → List Nat) (md5f : List Nat → String)
    (pc : String × List Nat) : (mkAsset gzipC md5f pc).path = pc.1 := rfl

theorem mkAsset_md5 (gzipC : List Nat → List Nat) (md5f : List Nat → String)
    (pc : String × List Nat) : (mkAsset gzipC md5f pc).md5 = md5f pc.2 := rfl

/-- The byte range handed to the decompressor — the first declared-size-minus-
one elements of the array — is exactly the compressed blob. -/
theorem mkAsset_passed (gzipC : List Nat → List Nat) (md5f : List Nat → String)
    (pc : String × List Nat) (h : ∀ b ∈ gzipC pc.2, b < 256) :
    (mkAsset gzipC md5f pc).storedData.take ((mkAsset gzipC md5f pc).storedSize - 1) =
      gzipC pc.2 := by
  rw [mkAsset_storedData gzipC md5f pc h, mkAsset_storedSize]
  simpa using List.take_left (gzipC pc.2) [0]

/-- C7: for every byte value 0-255, applying the literal encoding and then the
host language's string-literal decoding yields the original byte: the round
trip is the identity on bytes, including the quote, backslash, and
question-mark bytes and all non-printable bytes. -/
theorem c7_literal_byte_roundtrip (c : Nat) (h : c < 256) :
    decodeBody (encodeByte c) = [c] := by
  have hx := decodeBody_encodeByte c h []
  rw [List.append_nil] at hx
  rw [hx]
  simp [decodeBody, decodeAux_nil]

theorem c7_witness : (92:Nat) < 256 ∧ decodeBody (encodeByte 92) = [92] :=
  ⟨by decide, c7_literal_byte_roundtrip 92 (by decide)⟩

/-- C9: the emitted string literal is wrapped by closing and reopening the
literal, and this wrapping has no semantic effect: the byte sequence denoted
by the (possibly split) literal is identical to that of the unwrapped
encoding of the blob — both denote exactly the blob. -/
theorem c9_wrapping_no_semantic_effect (content : List Nat)
    (h : ∀ b ∈ content, b < 256) :
    decodeLiteral (encodeLoop content 0) = decodeLiteral (encodeFlat content) ∧
    decodeLiteral (encodeLoop content 0) = content := by
  have h1 : decodeLiteral (encodeLoop content 0) = content :=
    decodeBody_encodeLoop content h 0
  have h2 : decodeLiteral (encodeFlat content) = content :=
    decodeBody_encodeFlat content h
  exact ⟨h1.trans h2.symm, h1⟩

theorem c9_witness :
    (∀ b ∈ List.replicate 121 65, b < 256) ∧
    (decodeLiteral (encodeLoop (List.replicate 121 65) 0) =
        decodeLiteral (encodeFlat (List.replicate 121 65)) ∧
      decodeLiteral (encodeLoop (List.replicate 121 65) 0) = List.replicate 121 65) :=
  ⟨by decide, c9_wrapping_no_semantic_effect (List.replicate 121 65) (by decide)⟩

/-- C6 counterexample: the quote byte 34 is not in the "printable and not a
quote, backslash, or question-mark" class, yet the encoder does not render it
as a three-digit octal escape — it renders the two characters backslash,
quote. -/
theorem c6_counterexample :
    ¬(32 ≤ 34 ∧ 34 < 127 ∧ (34:Nat) ≠ 34 ∧ (34:Nat) ≠ 92 ∧ (34:Nat) ≠ 63) ∧
    encodeByte 34 ≠ 92 :: octal3 34 ∧ encodeByte 34 = [92, 34] := by
  decide

/-- C6 (amended): every printable byte other than quote, backslash and
question mark is rendered verbatim; the quote and backslash bytes are
rendered as a backslash followed by the character itself; every other byte
(non-printable, at or above 127, or the question mark) is rendered as a
fixed-width three-digit octal escape. -/
theorem c6_amended_encodeByte_branches (c : Nat) (h : c < 256) :
    ((32 ≤ c ∧ c < 127 ∧ c ≠ 34 ∧ c ≠ 92 ∧ c ≠ 63) → encodeByte c = [c]) ∧
    ((c = 34 ∨ c = 92) → encodeByte c = [92, c]) ∧
    ((c < 32 ∨ 127 ≤ c ∨ c = 63) → encodeByte c = 92 :: octal3 c) := by
  refine ⟨fun hx => ?_, fun hx => ?_, fun hx => ?_⟩
  · have hne : ¬(c < 32 ∨ 127 ≤ c ∨ c = 63) := by omega
    have h2 : ¬(c = 34 ∨ c = 92) := by
      rintro (h2 | h2) <;> omega
    simp [encodeByte, if_neg hne, if_neg h2]
  · have hne : ¬(c < 32 ∨ 127 ≤ c ∨ c = 63) := by
      rcases hx with hx | hx <;> subst hx <;> decide
    simp [encodeByte, if_neg hne, if_pos hx]
  · simp [encodeByte, if_pos hx]

theorem c6_witness : (34:Nat) < 256 ∧ encodeByte 34 = [92, 34] :=
  ⟨by decide, (c6_amended_encodeByte_branches 34 (by decide)).2.1 (Or.inl rfl)⟩

/-- C1: for every file of the source tree (with the unique relative paths the
tree guarantees), looking its path up in the generated artifact returns
exactly its original raw bytes: the composition of the encoder
(gzip-compress, literal-encode, emit with checksum) and the runtime decode
contract (dispatch, gzip-decompress, MD5-verify) is the identity on file
contents, assuming the external gzip pair is a lossless round trip on these
contents (and produces 8-bit bytes). MD5 determinism is the determinism of
the function `md5f`. -/
theorem c1_decode_encode_identity (gzipC gunzip : List Nat → List Nat)
    (md5f : List Nat → String) (files : List (String × List Nat))
    (hnd : (files.map Prod.fst).Nodup)
    (hgz : ∀ pc ∈ files, gunzip (gzipC pc.2) = pc.2)
    (h256 : ∀ pc ∈ files, ∀ b ∈ gzipC pc.2, b < 256)
    (p : String) (content : List Nat) (hmem : (p, content) ∈ files) :
    ReadStaticAsset gunzip md5f (generateAssets gzipC md5f files) p =
      ReadResult.ok content := by
  revert hnd hgz h256 hmem
  induction files with
  | nil =>
    intro _ _ _ hmem
    cases hmem
  | cons pc rest ih =>
    obtain ⟨p0, c0⟩ := pc
    intro hnd hgz h256 hmem
    rw [List.map_cons, List.nodup_cons] at hnd
    simp only [generateAssets, List.map_cons]
    rw [ReadStaticAsset]
    simp only [mkAsset_path]
    by_cases hp : p = p0
    · subst hp
      have hcc : content = c0 := by
        rcases List.mem_cons.mp hmem with he | hr
        · simpa using congrArg Prod.snd he
        · exfalso
          have hpm : p ∈ rest.map Prod.fst := by
            simpa using List.mem_map_of_mem Prod.fst hr
          exact hnd.1 hpm
      subst hcc
      rw [if_pos rfl,
        mkAsset_passed gzipC md5f (p, content) (h256 (p, content) (List.mem_cons_self _ _)),
        mkAsset_md5]
      simp [Uncompress, hgz (p, content) (List.mem_cons_self _ _)]
    · rw [if_neg hp]
      have hr : (p, content) ∈ rest := by
        rcases List.mem_cons.mp hmem with he | hr
        · exact absurd (by simpa using congrArg Prod.fst he) hp
        · exact hr
      exact ih hnd.2 (fun q hq => hgz q (List.mem_cons_of_mem _ hq))
        (fun q hq => h256 q (List.mem_cons_of_mem _ hq)) hr

/-- A toy lossless compressor pair and digest used only to instantiate the
external-collaborator parameters at concrete inputs. -/
def toyZip (l : List Nat) : List Nat := 99 :: l

def toyUnzip (l : List Nat) : List Nat := l.tail

def toyMd5 (l : List Nat) : String := toString l

theorem c1_witness :
    ReadStaticAsset toyUnzip toyMd5
        (generateAssets toyZip toyMd5 [("a.txt", [104, 101, 108, 108, 111])])
        "a.txt" =
      ReadResult.ok [104, 101, 108, 108, 111] :=
  c1_decode_encode_identity toyZip toyUnzip toyMd5
    [("a.txt", [104, 101, 108, 108, 111])] (by decide)
    (by intro pc hpc; simp at hpc; subst hpc; rfl)
    (by intro pc hpc; simp at hpc; subst hpc; decide)
    "a.txt" [104, 101, 108, 108, 111] (by simp)

/-- C3: a path absent from the source tree fails with the distinct "not
found" condition (ErrorCode_InexistentItem) after all exact path comparisons
fail; it never yields another asset's bytes and never reaches the corruption
branch. -/
theorem c3_unknown_path_not_found (gzipC gunzip : List Nat → List Nat)
    (md5f : List Nat → String) (files : List (String × List Nat)) (p : String)
    (habs : p ∉ files.map Prod.fst) :
    ReadStaticAsset gunzip md5f (generateAssets gzipC md5f files) p =
        ReadResult.inexistentItem ∧
      ReadStaticAsset gunzip md5f (generateAssets gzipC md5f files) p ≠
        ReadResult.corruptedFile ∧
      ∀ bytes, ReadStaticAsset gunzip md5f (generateAssets gzipC md5f files) p ≠
        ReadResult.ok bytes := by
  have hmain : ReadStaticAsset gunzip md5f (generateAssets gzipC md5f files) p =
      ReadResult.inexistentItem := by
    revert habs
    induction files with
    | nil => intro _; rfl
    | cons pc rest ih =>
      intro habs
      simp only [List.map_cons, List.mem_cons, not_or] at habs
      simp only [generateAssets, List.map_cons]
      rw [ReadStaticAsset]
      simp only [mkAsset_path]
      rw [if_neg habs.1]
      exact ih habs.2
  refine ⟨hmain, ?_, fun bytes => ?_⟩
  · rw [hmain]; decide
  · rw [hmain]; intro hcon; cases hcon

theorem c3_witness :
    ReadStaticAsset toyUnzip toyMd5
        (generateAssets toyZip toyMd5 [("a.txt", [104, 101, 108, 108, 111])])
        "missing.txt" =
      ReadResult.inexistentItem :=
  (c3_unknown_path_not_found toyZip toyUnzip toyMd5
    [("a.txt", [104, 101, 108, 108, 111])] "missing.txt" (by simp)).1

/-- C4: for a matched asset, the runtime decode recomputes the MD5 of the
decompressed bytes and fails with the distinct "corrupted data" condition
(ErrorCode_CorruptedFile) exactly when the recomputed digest differs from the
embedded expected checksum string; when they are equal it returns the
decompressed bytes; the "not found" and "corrupted" conditions are
distinguishable. -/
theorem c4_checksum_verification (gunzip : List Nat → List Nat)
    (md5f : List Nat → String) (a : GenAsset) (rest : List GenAsset) :
    (ReadStaticAsset gunzip md5f (a :: rest) a.path = ReadResult.corruptedFile ↔
        md5f (gunzip (a.storedData.take (a.storedSize - 1))) ≠ a.md5) ∧
      (ReadStaticAsset gunzip md5f (a :: rest) a.path =
          ReadResult.ok (gunzip (a.storedData.take (a.storedSize - 1))) ↔
        md5f (gunzip (a.storedData.take (a.storedSize - 1))) = a.md5) ∧
      ReadResult.inexistentItem ≠ ReadResult.corruptedFile := by
  rw [ReadStaticAsset, if_pos rfl]
  unfold Uncompress
  by_cases hm : md5f (gunzip (a.storedData.take (a.storedSize - 1))) = a.md5
  · simp [hm]
  · simp [hm]

/-- C5: for an asset whose compressed representation has N bytes, the encoder
declares the embedded array with size N+1 (one extra terminator element
beyond the true length), and the dispatch passes the declared size minus one
to decompression, so the byte range handed to the decompressor is exactly the
compressed blob, of length N. -/
theorem c5_size_off_by_one (gzipC : List Nat → List Nat) (md5f : List Nat → String)
    (files : List (String × List Nat)) (pc : String × List Nat) (hpc : pc ∈ files)
    (h256 : ∀ b ∈ gzipC pc.2, b < 256) :
    ∃ a ∈ generateAssets gzipC md5f files,
      a.path = pc.1 ∧
      a.storedSize = (gzipC pc.2).length + 1 ∧
      a.storedData.length = a.storedSize ∧
      a.storedData.take (a.storedSize - 1) = gzipC pc.2 ∧
      (a.storedData.take (a.storedSize - 1)).length = (gzipC pc.2).length := by
  refine ⟨mkAsset gzipC md5f pc, List.mem_map_of_mem _ hpc, mkAsset_path gzipC md5f pc,
    mkAsset_storedSize gzipC md5f pc, ?_, mkAsset_passed gzipC md5f pc h256, ?_⟩
  · rw [mkAsset_storedData gzipC md5f pc h256, mkAsset_storedSize]
    simp
  · rw [mkAsset_passed gzipC md5f pc h256]

theorem c5_witness :
    ∃ a ∈ generateAssets toyZip toyMd5 [("a.txt", [104, 101, 108, 108, 111])],
      a.path = "a.txt" ∧
      a.storedSize = (toyZip [104, 101, 108, 108, 111]).length + 1 ∧
      a.storedData.length = a.storedSize ∧
      a.storedData.take (a.storedSize - 1) = toyZip [104, 101, 108, 108, 111] ∧
      (a.storedData.take (a.storedSize - 1)).length =
        (toyZip [104, 101, 108, 108, 111]).length :=
  c5_size_off_by_one toyZip toyMd5 [("a.txt", [104, 101, 108, 108, 111])]
    ("a.txt", [104, 101, 108, 108, 111]) (by simp) (by decide)

/-- C2: the checksum constant emitted for the asset at position i of the
traversal is the digest of that asset's original (pre-compression) raw bytes
— the call site passes the raw `content`, not the compressed blob — and it is
emitted as a second literal constant named by the same asset identifier with
suffix _md5. -/
theorem c2_checksum_of_original_bytes (gzipC : List Nat → List Nat)
    (md5f : List Nat → String) (files : List (String × List Nat)) (count i : Nat)
    (hi : i < files.length) :
    ∃ pre post, (emitAssets gzipC md5f files count).1 =
      pre ++
        writeChecksumText md5f ("data_" ++ pad6 (count + i) ++ "_md5")
          (files.get ⟨i, hi⟩).2 ++ post := by
  revert hi
  induction files generalizing count i with
  | nil => intro hi; exact absurd hi (Nat.not_lt_zero i)
  | cons pc rest ih =>
    intro hi
    obtain ⟨p, c⟩ := pc
    cases i with
    | zero =>
      refine ⟨encodeFileAsCStringText ("data_" ++ pad6 count) (gzipC c),
        (emitAssets gzipC md5f rest (count + 1)).1, ?_⟩
      simp [emitAssets, String.append_assoc]
    | succ j =>
      have hj : j < rest.length := by simpa using hi
      obtain ⟨pre, post, hsplit⟩ := ih (count + 1) j hj
      have hcnt : count + 1 + j = count + (j + 1) := by omega
      rw [hcnt] at hsplit
      refine ⟨encodeFileAsCStringText ("data_" ++ pad6 count) (gzipC c) ++
        writeChecksumText md5f ("data_" ++ pad6 count ++ "_md5") c ++ pre, post, ?_⟩
      simp only [emitAssets, List.get]
      rw [hsplit]
      simp [String.append_assoc]

theorem c2_witness :
    ∃ pre post, (emitAssets toyZip toyMd5 [("a.txt", [104])] 0).1 =
      pre ++
        writeChecksumText toyMd5 ("data_" ++ pad6 (0 + 0) ++ "_md5") [104] ++ post :=
  c2_checksum_of_original_bytes toyZip toyMd5 [("a.txt", [104])] 0 0 (by decide)

/-- C8: a wrong argument count fails with the usage error, and an existing
argument count with a source that is not a directory fails with the
existence error; in both cases the outcome carries no artifact text — the
checks run before the target file is opened, so no byte of the destination
is produced. -/
theorem c8_startup_errors (isDir : String → Bool)
    (walk : String → List (String × List Nat)) (gzipC : List Nat → List Nat)
    (md5f : List Nat → String) (argv : List String) :
    (argv.length ≠ 3 →
      runEncoder isDir walk gzipC md5f argv = EncoderOutcome.usageError ∧
      ∀ s, runEncoder isDir walk gzipC md5f argv ≠ EncoderOutcome.generated s) ∧
    (argv.length = 3 → isDir (argv.getD 1 "") = false →
      runEncoder isDir walk gzipC md5f argv = EncoderOutcome.sourceNotFound ∧
      ∀ s, runEncoder isDir walk gzipC md5f argv ≠ EncoderOutcome.generated s) := by
  constructor
  · intro h
    rw [runEncoder, if_pos h]
    exact ⟨rfl, fun s hcon => by cases hcon⟩
  · intro h3 hdir
    rw [runEncoder, if_neg (not_not_intro h3), if_pos (show ¬isDir (argv.getD 1 "") = true by rw [hdir]; decide)]
    exact ⟨rfl, fun s hcon => by cases hcon⟩

/-- C10: `WriteChecksum` ignores its first parameter `f` and performs its
write on the module-level handle `g`: the write event is the same whatever
file object is passed as `f`, its destination is always the handle bound by
the enclosing `with open(TARGET) as g`, and while `g` is not bound no write
is possible at all. -/
theorem c10_writeChecksum_global_handle (fa fb : Nat) (genv : Option Nat)
    (md5f : List Nat → String) (vname : String) (content : List Nat) :
    WriteChecksumEvent fa genv md5f vname content =
        WriteChecksumEvent fb genv md5f vname content ∧
      (∀ g, WriteChecksumEvent fa (some g) md5f vname content =
        some (g, writeChecksumText md5f vname content)) ∧
      WriteChecksumEvent fa none md5f vname content = none := by
  refine ⟨?_, fun g => rfl, rfl⟩
  cases genv <;> rfl
